import Mathlib

/-!
# Verification of the `maply` geometry/plotting layer

Shallow embedding of `src/maply/geometry.py` and `src/plot.py`.

Conventions of the embedding:
* Python floats are modelled as exact rationals (`ℚ`); the operations the
  code performs on coordinates (addition, multiplication, division by grid
  counts) are exact in the source's intended semantics.
* Python dicts (attribute data, style dicts, the `Map.layers` mapping) are
  modelled as insertion-ordered association lists with the update semantics
  of `dict.__setitem__` / `dict.update`.
* Fallible constructors (`__post_init__` bodies that `raise`) are modelled
  as functions into `Except PyError _`, where `PyError` distinguishes
  `ValueError` from `TypeError`.
* Methods that can mutate `self` are modelled by explicit state passing:
  they return a pair of (result, shape-after-the-call).
* Calls into the shapely geometry library are modelled by the symbolic
  `Geometry` type: the library's constructors are treated as total
  functions recording their arguments.
-/

namespace Maply

/-- A 2-D coordinate `(x, y)`, modelling a Python `(float, float)` tuple. -/
abbrev Coord : Type := ℚ × ℚ

/-- Symbolic model of the shapely geometry objects the code constructs.
`multiPolygon` carries each member polygon as (exterior ring, holes). -/
inductive Geometry where
  | point (c : Coord)
  | lineString (cs : List Coord)
  | polygon (ring : List Coord) (holes : List (List Coord))
  | multiPoint (pts : List Coord)
  | multiLineString (parts : List (List Coord))
  | multiPolygon (parts : List (List Coord × List (List Coord)))
deriving DecidableEq, Repr

/-- The value stored in a shape's `coords` field: a single tuple (Point),
a list of tuples (Line/Polygon), or a list of lists (Multi- variants). -/
inductive CoordsField where
  | single (c : Coord)
  | list (cs : List Coord)
  | nested (css : List (List Coord))
deriving DecidableEq, Repr

/-- Python exceptions raised by the constructors. -/
inductive PyError where
  | valueError (msg : String)
  | typeError (msg : String)
deriving DecidableEq, Repr

deriving instance DecidableEq for Except

/-- Values stored in attribute/style dicts and table rows. -/
inductive Value where
  | str (s : String)
  | int (z : ℤ)
  | geom (g : Geometry)
deriving DecidableEq, Repr

/-- A Python dict with string keys, as an insertion-ordered association list. -/
abbrev Dict (β : Type) : Type := List (String × β)

/-- Lookup in a dict (first entry with the key; entries built through
`dictInsert` have unique keys, as Python dicts do). -/
def dictGet {β : Type} : Dict β → String → Option β
  | [], _ => none
  | (a, b) :: d, k => if a = k then some b else dictGet d k

/-- `d[k] = v` for a Python dict: overwrite the existing entry for `k` in
place, or append a new entry at the end. -/
def dictInsert {β : Type} : Dict β → String → β → Dict β
  | [], k, v => [(k, v)]
  | (a, b) :: d, k, v => if a = k then (k, v) :: d else (a, b) :: dictInsert d k v

/-- `d.update(u)` for Python dicts: insert every entry of `u` in order. -/
def dictUpdate {β : Type} (d u : Dict β) : Dict β :=
  u.foldl (fun acc p => dictInsert acc p.1 p.2) d

/-- Apply `f` to the value stored at `k` (models in-place mutation of a
dict entry, e.g. `self.layers[layer]["shapes"].append(...)`). -/
def dictModify {β : Type} : Dict β → String → (β → β) → Dict β
  | [], _, _ => []
  | (a, b) :: d, k, f => if a = k then (a, f b) :: d else (a, b) :: dictModify d k f

/-- Lookup returning the LAST entry with the key; agrees with `dictGet`
on duplicate-free dicts and describes the net effect of `dictUpdate`. -/
def dictGetLast {β : Type} : Dict β → String → Option β
  | [], _ => none
  | (a, b) :: d, k =>
    match dictGetLast d k with
    | some v => some v
    | none => if a = k then some b else none

theorem dictGet_insert {β : Type} (d : Dict β) (a : String) (v : β) (k : String) :
    dictGet (dictInsert d a v) k = if a = k then some v else dictGet d k := by
  induction d with
  | nil => simp [dictInsert, dictGet]
  | cons p d ih =>
    obtain ⟨x, y⟩ := p
    by_cases hxa : x = a
    · subst hxa
      simp only [dictInsert, if_pos rfl, dictGet]
      by_cases hak : x = k <;> simp [dictGet, hak]
    · simp only [dictInsert, if_neg hxa, dictGet]
      by_cases hxk : x = k
      · subst hxk
        have : ¬ a = x := fun h => hxa h.symm
        simp [this, dictGet]
      · simp [hxk, ih]

theorem dictGet_modify {β : Type} (d : Dict β) (a : String) (f : β → β) (k : String) :
    dictGet (dictModify d a f) k = if a = k then (dictGet d k).map f else dictGet d k := by
  induction d with
  | nil => simp [dictModify, dictGet]
  | cons p d ih =>
    obtain ⟨x, y⟩ := p
    by_cases hxa : x = a
    · subst hxa
      simp only [dictModify, if_pos rfl, dictGet]
      by_cases hxk : x = k <;> simp [dictGet, hxk]
    · simp only [dictModify, if_neg hxa, dictGet]
      by_cases hxk : x = k
      · subst hxk
        have : ¬ a = x := fun h => hxa h.symm
        simp [this, dictGet]
      · simp [hxk, ih]

theorem dictGet_update {β : Type} (u d : Dict β) (k : String) :
    dictGet (dictUpdate d u) k =
      match dictGetLast u k with
      | some v => some v
      | none => dictGet d k := by
  induction u generalizing d with
  | nil => simp [dictUpdate, dictGetLast]
  | cons p u ih =>
    obtain ⟨a, b⟩ := p
    show dictGet (dictUpdate (dictInsert d a b) u) k = _
    rw [ih]
    cases hu : dictGetLast u k with
    | some v => simp [dictGetLast, hu]
    | none =>
      rw [dictGet_insert]
      by_cases hak : a = k <;> simp [dictGetLast, hu, hak]

theorem dictGetLast_eq_none_iff {β : Type} (d : Dict β) (k : String) :
    dictGetLast d k = none ↔ dictGet d k = none := by
  induction d with
  | nil => simp [dictGetLast, dictGet]
  | cons p d ih =>
    obtain ⟨a, b⟩ := p
    by_cases hak : a = k
    · subst hak
      cases hd : dictGetLast d a <;> simp [dictGetLast, dictGet, hd, ← ih]
    · cases hd : dictGetLast d k <;> simp [dictGetLast, dictGet, hd, hak, ← ih]

theorem dictGet_eq_none_of_not_mem {β : Type} (d : Dict β) (k : String)
    (h : k ∉ d.map Prod.fst) : dictGet d k = none := by
  induction d with
  | nil => rfl
  | cons p d ih =>
    obtain ⟨a, b⟩ := p
    simp only [List.map_cons, List.mem_cons] at h
    push_neg at h
    have hak : ¬ a = k := fun hh => h.1 hh.symm
    simp [dictGet, hak, ih h.2]

theorem dictGetLast_eq_dictGet_of_nodup {β : Type} (d : Dict β) (k : String)
    (h : (d.map Prod.fst).Nodup) : dictGetLast d k = dictGet d k := by
  induction d with
  | nil => rfl
  | cons p d ih =>
    obtain ⟨a, b⟩ := p
    simp only [List.map_cons, List.nodup_cons] at h
    by_cases hak : a = k
    · subst hak
      have hnone : dictGet d a = none := dictGet_eq_none_of_not_mem d a h.1
      have hlast : dictGetLast d a = none := (dictGetLast_eq_none_iff d a).mpr hnone
      simp [dictGetLast, dictGet, hlast]
    · cases hd : dictGetLast d k with
      | some v => simp [dictGetLast, dictGet, hd, hak, ← ih h.2, hd]
      | none => simp [dictGetLast, dictGet, hd, hak, ← ih h.2, hd]

/-! ## Shapes (`src/maply/geometry.py`) -/

/-- Base dataclass `Shape`: `coords`, attribute dict `data`, and the derived
shapely `geometry` (set by every subclass's `__post_init__`). -/
structure Shape where
  coords : CoordsField
  data : Dict Value
  geometry : Geometry
deriving DecidableEq, Repr

/-- A table row of the GeoDataFrame produced by `Shape.to_gdf`. -/
abbrev Row : Type := Dict Value

/-- `Shape.to_gdf`: `gdf_dict = self.data or {}` binds `gdf_dict` to the very
`self.data` object when `data` is non-empty (truthy), so the subsequent
`gdf_dict["geometry"] = self.geometry` mutates the shape's own attribute
dict; with empty/absent `data` a fresh dict is used. Modelled by explicit
state passing: returns (rows of the GeoDataFrame, shape after the call). -/
def Shape.to_gdf (sh : Shape) : List Row × Shape :=
  if sh.data.isEmpty then
    ([dictInsert [] "geometry" (Value.geom sh.geometry)], sh)
  else
    let d := dictInsert sh.data "geometry" (Value.geom sh.geometry)
    ([d], { sh with data := d })

/-- `Point` (a dataclass extending `Shape` with no new fields). -/
structure SPoint extends Shape
deriving DecidableEq, Repr

/-- `Line` (a dataclass extending `Shape` with no new fields). -/
structure SLine extends Shape
deriving DecidableEq, Repr

/-- `Polygon`: adds `origin`, `size`, `interior` fields. -/
structure SPolygon extends Shape where
  origin : Option Coord
  size : Option Coord
  interior : Option (List (List Coord))
deriving DecidableEq, Repr

/-- `Point.__post_init__`: raises `ValueError` when `coords` is `None`,
otherwise derives a shapely point. -/
def mkPoint (coords : Option Coord) (data : Dict Value) : Except PyError SPoint :=
  match coords with
  | none => .error (.valueError "Must provide `coords`.")
  | some c => .ok ⟨⟨CoordsField.single c, data, Geometry.point c⟩⟩

/-- `Line.__post_init__`: raises `ValueError` when `coords` is `None`,
otherwise derives a shapely line string. -/
def mkLine (coords : Option (List Coord)) (data : Dict Value) : Except PyError SLine :=
  match coords with
  | none => .error (.valueError "Must provide `coords`.")
  | some cs => .ok ⟨⟨CoordsField.list cs, data, Geometry.lineString cs⟩⟩

/-- The axis-aligned rectangle ring derived by `Polygon.__post_init__` from
`origin` and `size`. -/
def rectRing (o s : Coord) : List Coord :=
  [o, (o.1 + s.1, o.2), (o.1 + s.1, o.2 + s.2), (o.1, o.2 + s.2)]

/-- `Polygon.__post_init__`: with both `origin` and `size`, overwrite
`coords` with the rectangle ring; else with `coords` not `None` use it as
given; else raise `ValueError`. Finally derive the shapely polygon with
holes `self.interior or []`. -/
def mkPolygon (coords : Option (List Coord)) (origin size : Option Coord)
    (interior : Option (List (List Coord))) (data : Dict Value) :
    Except PyError SPolygon :=
  match origin, size with
  | some o, some s =>
    .ok { coords := CoordsField.list (rectRing o s), data := data,
          geometry := Geometry.polygon (rectRing o s) (interior.getD []),
          origin := some o, size := some s, interior := interior }
  | _, _ =>
    match coords with
    | some cs =>
      .ok { coords := CoordsField.list cs, data := data,
            geometry := Geometry.polygon cs (interior.getD []),
            origin := origin, size := size, interior := interior }
    | none => .error (.valueError "Must provide either `origin` and `size`, or `coords`.")

/-- The polygon built by `Polygon(origin=o, size=s)` with all remaining
arguments left at their dataclass defaults (as `split_grid` builds its
sub-polygons). -/
def mkRect (o s : Coord) : SPolygon :=
  { coords := CoordsField.list (rectRing o s), data := [],
    geometry := Geometry.polygon (rectRing o s) [],
    origin := some o, size := some s, interior := none }

theorem mkPolygon_origin_size_eq_mkRect (o s : Coord) :
    mkPolygon (some []) (some o) (some s) none [] = .ok (mkRect o s) := rfl

/-- The list produced by `for i in range(r): for j in ...: acc.append ...`:
concatenation of the per-`i` row lists, `i` ascending. -/
def concatRows {α : Type} : ℕ → (ℕ → List α) → List α
  | 0, _ => []
  | n + 1, g => concatRows n g ++ g n

/-- `Polygon.split_grid(rows, cols)`: raises `ValueError` unless both
`origin` and `size` are set; otherwise builds the `rows × cols` grid of
sub-polygons in row-major order. The method never assigns to `self`, which
the state-passing embedding records by returning `p` unchanged. -/
def splitGrid (p : SPolygon) (rows cols : ℕ) :
    Except PyError (List SPolygon) × SPolygon :=
  match p.size, p.origin with
  | some s, some o =>
    let width := s.1 / (cols : ℚ)
    let height := s.2 / (rows : ℚ)
    (.ok (concatRows rows (fun i =>
        (List.range cols).map (fun (j : ℕ) =>
          mkRect (o.1 + (j : ℚ) * width, o.2 + (i : ℚ) * height) (width, height)))), p)
  | _, _ => (.error (.valueError "Grid splitting requires `origin` and `size`."), p)

/-! ### Multi-part constructors -/

/-- An element passed to `MultiPolygon(polygons=...)`: a `Polygon` instance,
a raw coordinate list, or a value of any other type. -/
inductive PolyElem where
  | poly (p : SPolygon)
  | coords (cs : List Coord)
  | other
deriving DecidableEq, Repr

/-- An element passed to `MultiLine(lines=...)`. -/
inductive LineElem where
  | line (l : SLine)
  | coords (cs : List Coord)
  | other
deriving DecidableEq, Repr

/-- An element passed to `MultiPoint(points=...)`: a `Point` instance, a
coordinate tuple, or a value of any other type. -/
inductive PointElem where
  | point (p : SPoint)
  | coord (c : Coord)
  | other
deriving DecidableEq, Repr

/-- Exterior ring and holes of a polygon geometry (what
`ShapelyMultiPolygon` keeps of each member). The non-polygon fallback is
unreachable for geometries produced by the `Polygon` constructor. -/
def Geometry.asPolyParts : Geometry → List Coord × List (List Coord)
  | .polygon r h => (r, h)
  | _ => ([], [])

/-- Coordinates of a line-string geometry (fallback unreachable for
geometries produced by the `Line` constructor). -/
def Geometry.asLineCoords : Geometry → List Coord
  | .lineString cs => cs
  | _ => []

/-- Coordinate of a point geometry (fallback unreachable for geometries
produced by the `Point` constructor). -/
def Geometry.asPointCoord : Geometry → Coord
  | .point c => c
  | _ => ((0 : ℚ), (0 : ℚ))

/-- Normalization of one `MultiPolygon` element: `item.geometry` for a
`Polygon` instance, `ShapelyPolygon(item)` for a coordinate list, `none`
(→ `TypeError`) otherwise. -/
def PolyElem.normalize : PolyElem → Option (List Coord × List (List Coord))
  | .poly p => some p.geometry.asPolyParts
  | .coords cs => some (cs, [])
  | .other => none

/-- Normalization of one `MultiLine` element. -/
def LineElem.normalize : LineElem → Option (List Coord)
  | .line l => some l.geometry.asLineCoords
  | .coords cs => some cs
  | .other => none

/-- Normalization of one `MultiPoint` element. -/
def PointElem.normalize : PointElem → Option Coord
  | .point p => some p.geometry.asPointCoord
  | .coord c => some c
  | .other => none

/-- The `for item in ...: if isinstance ... else raise TypeError(msg)` loop
shared (textually duplicated) by the three Multi- constructors. -/
def pyProcess {α β : Type} (normalize : α → Option β) (msg : String) :
    List α → Except PyError (List β)
  | [] => .ok []
  | e :: es =>
    match normalize e with
    | none => .error (.typeError msg)
    | some v =>
      match pyProcess normalize msg es with
      | .ok vs => .ok (v :: vs)
      | .error err => .error err

/-- Shapely closes an exterior ring: `list(poly.exterior.coords)` repeats
the first coordinate at the end when the input ring was not closed. -/
def closeRing (r : List Coord) : List Coord :=
  match r with
  | [] => []
  | c :: _ => if r.getLast? = some c then r else r ++ [c]

/-- `MultiPolygon`: adds the `polygons` input field. -/
structure SMultiPolygon extends Shape where
  polygons : List PolyElem
deriving DecidableEq, Repr

/-- `MultiLine`: adds the `lines` input field. -/
structure SMultiLine extends Shape where
  lines : List LineElem
deriving DecidableEq, Repr

/-- `MultiPoint`: adds the `points` input field. -/
structure SMultiPoint extends Shape where
  points : List PointElem
deriving DecidableEq, Repr

/-- `MultiPolygon.__post_init__`: normalize every element (raising
`TypeError` on a foreign one), build the multi-polygon geometry, and store
the flattened exterior-ring coordinates. -/
def mkMultiPolygon (elems : List PolyElem) (data : Dict Value) :
    Except PyError SMultiPolygon :=
  match pyProcess PolyElem.normalize
      "MultiPolygon must be initialized with Polygon instances or coordinate lists." elems with
  | .error e => .error e
  | .ok parts =>
    .ok { coords := CoordsField.nested (parts.map (fun pr => closeRing pr.1)),
          data := data, geometry := Geometry.multiPolygon parts, polygons := elems }

/-- `MultiLine.__post_init__`. -/
def mkMultiLine (elems : List LineElem) (data : Dict Value) :
    Except PyError SMultiLine :=
  match pyProcess LineElem.normalize
      "MultiLine must be initialized with Line instances or coordinate lists." elems with
  | .error e => .error e
  | .ok parts =>
    .ok { coords := CoordsField.nested parts,
          data := data, geometry := Geometry.multiLineString parts, lines := elems }

/-- `MultiPoint.__post_init__`. -/
def mkMultiPoint (elems : List PointElem) (data : Dict Value) :
    Except PyError SMultiPoint :=
  match pyProcess PointElem.normalize
      "MultiPoint must be initialized with Point instances or coordinate tuples." elems with
  | .error e => .error e
  | .ok parts =>
    .ok { coords := CoordsField.nested (parts.map (fun c => [c])),
          data := data, geometry := Geometry.multiPoint parts, points := elems }

/-! ### `Shape.random` -/

/-- `random.randint(lo, hi)` (inclusive bounds), modelled against an oracle
stream of draws: the next stream value when it lies in `[lo, hi]`, else
`lo` (any in-range default; an exhausted stream also yields `lo`). -/
def randint (lo hi : ℤ) (s : List ℤ) : ℤ × List ℤ :=
  match s with
  | [] => (lo, [])
  | v :: rest => (if lo ≤ v ∧ v ≤ hi then v else lo, rest)

/-- The `[(randint(*bounds), randint(*bounds)) for _ in range(n)]`
comprehension of `Shape.random`. -/
def randCoords : ℕ → ℤ × ℤ → List ℤ → List Coord × List ℤ
  | 0, _, s => ([], s)
  | n + 1, bd, s =>
    let r1 := randint bd.1 bd.2 s
    let r2 := randint bd.1 bd.2 r1.2
    let rest := randCoords n bd r2.2
    (((r1.1 : ℚ), (r2.1 : ℚ)) :: rest.1, rest.2)

/-- The `Line` value `Line(coords=cs)` (which cannot raise). -/
def lineOfCoords (cs : List Coord) : SLine :=
  ⟨⟨CoordsField.list cs, [], Geometry.lineString cs⟩⟩

theorem mkLine_some_eq_lineOfCoords (cs : List Coord) :
    mkLine (some cs) [] = .ok (lineOfCoords cs) := rfl

/-- The `"line"` branch of `Shape.random`: `num_points = randint(2, 5)`,
then that many coordinate pairs drawn from `bounds`. -/
def randomLine (bounds : ℤ × ℤ) (s : List ℤ) : SLine × List ℤ :=
  let r := randint 2 5 s
  let cs := randCoords r.1.toNat bounds r.2
  (lineOfCoords cs.1, cs.2)

/-! ## The `Map` layering model (`src/plot.py`) -/

/-- The `label` argument of `add_shape`/`add_gdf`: `None`, a bool, or a
string naming the attribute column to label with. -/
inductive LabelVal where
  | noLabel
  | boolLabel (b : Bool)
  | strLabel (s : String)
deriving DecidableEq, Repr

/-- The `"source"`/`"data"` pair of a layer item: a `Shape` or a
GeoDataFrame (modelled as its rows). -/
inductive Payload where
  | shape (s : Shape)
  | gdf (rows : List Row)
deriving DecidableEq, Repr

/-- One item appended to a layer's `"shapes"` list. -/
structure MapEntry where
  source : Payload
  label : LabelVal
  label_kwargs : Dict Value
deriving DecidableEq, Repr

/-- A layer: the `{"shapes": [...], "style": {...}}` dict. -/
structure LayerInfo where
  shapes : List MapEntry
  style : Dict Value
deriving DecidableEq, Repr

/-- The `Map` dataclass. -/
structure Map where
  layers : Dict LayerInfo := []
  title : String := "My Map"
  figsize : ℕ × ℕ := (10, 10)
deriving DecidableEq, Repr

/-- `Map()` with all dataclass defaults. -/
def Map.init : Map := {}

/-- Python truthiness of the optional `style` dict (`if style:`):
false for `None` and for an empty dict. -/
def styleTruthy : Option (Dict Value) → Bool
  | none => false
  | some s => !s.isEmpty

/-- The layer-insertion skeleton shared verbatim by `Map.add_shape` and
`Map.add_gdf`: create the layer with style `style or {}` if absent, append
the item to the layer's `"shapes"` list, and `if style:` merge `style`
into the layer's style dict. -/
def Map.addEntry (m : Map) (layer : String) (style : Option (Dict Value))
    (entry : MapEntry) : Map :=
  let layers1 :=
    match dictGet m.layers layer with
    | some _ => m.layers
    | none => dictInsert m.layers layer ⟨[], style.getD []⟩
  let layers2 := dictModify layers1 layer
    (fun info => ⟨info.shapes ++ [entry], info.style⟩)
  let layers3 :=
    if styleTruthy style then
      dictModify layers2 layer
        (fun info => ⟨info.shapes, dictUpdate info.style (style.getD [])⟩)
    else layers2
  { m with layers := layers3 }

/-- `Map.add_shape`. -/
def Map.add_shape (m : Map) (shape : Shape) (layer : String)
    (style : Option (Dict Value)) (label : LabelVal)
    (label_kwargs : Option (Dict Value)) : Map :=
  m.addEntry layer style ⟨Payload.shape shape, label, label_kwargs.getD []⟩

/-- `Map.add_gdf`. -/
def Map.add_gdf (m : Map) (gdf : List Row) (layer : String)
    (style : Option (Dict Value)) (label : LabelVal)
    (label_kwargs : Option (Dict Value)) : Map :=
  m.addEntry layer style ⟨Payload.gdf gdf, label, label_kwargs.getD []⟩

/-- One recorded `add_shape`/`add_gdf` call. -/
structure Call where
  payload : Payload
  layer : String
  style : Option (Dict Value)
  label : LabelVal
  label_kwargs : Option (Dict Value)
deriving DecidableEq, Repr

/-- Dispatch a recorded call to the corresponding `Map` method. -/
def applyCall (m : Map) (c : Call) : Map :=
  match c.payload with
  | .shape s => m.add_shape s c.layer c.style c.label c.label_kwargs
  | .gdf g => m.add_gdf g c.layer c.style c.label c.label_kwargs

/-- Run a sequence of `add_shape`/`add_gdf` calls. -/
def applyCalls (m : Map) (cs : List Call) : Map :=
  cs.foldl applyCall m

/-- The style value stored for key `k` of layer `L` (`None` when the layer
is absent or its style lacks the key). -/
def Map.styleGet (m : Map) (L k : String) : Option Value :=
  match dictGet m.layers L with
  | none => none
  | some info => dictGet info.style k

/-- The value a call's `style` argument specifies for key `k`, if any. -/
def styleSpec : Option (Dict Value) → String → Option Value
  | none, _ => none
  | some s, k => dictGet s k

/-- The value given for key `k` by the last call of the list that
specifies it. -/
def lastSpec : List Call → String → Option Value
  | [], _ => none
  | c :: cs, k =>
    match lastSpec cs k with
    | some v => some v
    | none => styleSpec c.style k

/-- A `style` argument is well formed when, as a Python dict, its keys are
duplicate-free. -/
def styleWF (style : Option (Dict Value)) : Prop :=
  ∀ s, style = some s → (s.map Prod.fst).Nodup

theorem addEntry_layers_self_none (m : Map) (L : String)
    (style : Option (Dict Value)) (entry : MapEntry)
    (hm : dictGet m.layers L = none) :
    dictGet (m.addEntry L style entry).layers L =
      some ⟨[entry],
        if styleTruthy style then dictUpdate (style.getD []) (style.getD [])
        else style.getD []⟩ := by
  simp only [Map.addEntry, hm]
  cases ht : styleTruthy style <;>
    simp [ht, dictGet_modify, dictGet_insert]

theorem addEntry_layers_self_some (m : Map) (L : String)
    (style : Option (Dict Value)) (entry : MapEntry) (info : LayerInfo)
    (hm : dictGet m.layers L = some info) :
    dictGet (m.addEntry L style entry).layers L =
      some ⟨info.shapes ++ [entry],
        if styleTruthy style then dictUpdate info.style (style.getD [])
        else info.style⟩ := by
  simp only [Map.addEntry, hm]
  cases ht : styleTruthy style <;>
    simp [ht, dictGet_modify, hm]

theorem addEntry_layers_other (m : Map) (L L' : String)
    (style : Option (Dict Value)) (entry : MapEntry) (hL : ¬ L = L') :
    dictGet (m.addEntry L style entry).layers L' = dictGet m.layers L' := by
  simp only [Map.addEntry]
  cases hm : dictGet m.layers L <;>
    cases ht : styleTruthy style <;>
      simp [ht, dictGet_modify, dictGet_insert, hL, hm]

theorem styleGet_addEntry (m : Map) (L : String) (style : Option (Dict Value))
    (entry : MapEntry) (k : String) (hwf : styleWF style) :
    (m.addEntry L style entry).styleGet L k =
      match styleSpec style k with
      | some v => some v
      | none => m.styleGet L k := by
  cases hm : dictGet m.layers L with
  | none =>
    rw [Map.styleGet, addEntry_layers_self_none m L style entry hm]
    cases style with
    | none => simp [styleTruthy, styleSpec, Map.styleGet, hm, dictGet]
    | some s =>
      cases s with
      | nil => simp [styleTruthy, styleSpec, Map.styleGet, hm, dictGet]
      | cons p ps =>
        have hnd := hwf (p :: ps) rfl
        simp only [styleTruthy, List.isEmpty_cons, Bool.not_false, if_true, Option.getD_some]
        rw [dictGet_update, dictGetLast_eq_dictGet_of_nodup _ _ hnd]
        cases hg : dictGet (p :: ps) k <;> simp [styleSpec, hg, Map.styleGet, hm]
  | some info =>
    rw [Map.styleGet, addEntry_layers_self_some m L style entry info hm]
    cases style with
    | none => simp [styleTruthy, styleSpec, Map.styleGet, hm]
    | some s =>
      cases s with
      | nil => simp [styleTruthy, styleSpec, Map.styleGet, hm, dictGet]
      | cons p ps =>
        have hnd := hwf (p :: ps) rfl
        simp only [styleTruthy, List.isEmpty_cons, Bool.not_false, if_true, Option.getD_some]
        rw [dictGet_update, dictGetLast_eq_dictGet_of_nodup _ _ hnd]
        cases hg : dictGet (p :: ps) k <;> simp [styleSpec, hg, Map.styleGet, hm]

theorem styleGet_applyCall (m : Map) (c : Call) (k : String) (hwf : styleWF c.style) :
    (applyCall m c).styleGet c.layer k =
      match styleSpec c.style k with
      | some v => some v
      | none => m.styleGet c.layer k := by
  cases hp : c.payload with
  | shape s =>
    simp only [applyCall, hp, Map.add_shape]
    exact styleGet_addEntry m c.layer c.style _ k hwf
  | gdf g =>
    simp only [applyCall, hp, Map.add_gdf]
    exact styleGet_addEntry m c.layer c.style _ k hwf

theorem styleGet_applyCalls (cs : List Call) (m : Map) (L k : String)
    (hL : ∀ c ∈ cs, c.layer = L) (hwf : ∀ c ∈ cs, styleWF c.style) :
    (applyCalls m cs).styleGet L k =
      match lastSpec cs k with
      | some v => some v
      | none => m.styleGet L k := by
  induction cs generalizing m with
  | nil => rfl
  | cons c cs ih =>
    have hcL : c.layer = L := hL c (by simp)
    have hcwf : styleWF c.style := hwf c (by simp)
    have hstep := styleGet_applyCall m c k hcwf
    rw [hcL] at hstep
    show (applyCalls (applyCall m c) cs).styleGet L k = _
    rw [ih (applyCall m c) (fun c' hc' => hL c' (by simp [hc']))
        (fun c' hc' => hwf c' (by simp [hc'])), hstep]
    cases h1 : lastSpec cs k with
    | some v => simp [lastSpec, h1]
    | none =>
      cases h2 : styleSpec c.style k <;> simp [lastSpec, h1, h2]

theorem addEntry_shapes_ne_nil (m : Map) (L' : String)
    (style : Option (Dict Value)) (entry : MapEntry)
    (hm : ∀ L info, dictGet m.layers L = some info → info.shapes ≠ []) :
    ∀ L info, dictGet (m.addEntry L' style entry).layers L = some info →
      info.shapes ≠ [] := by
  intro L info h
  by_cases hL : L' = L
  · subst hL
    cases hmm : dictGet m.layers L' with
    | none =>
      rw [addEntry_layers_self_none m L' style entry hmm] at h
      cases h
      simp
    | some i =>
      rw [addEntry_layers_self_some m L' style entry i hmm] at h
      cases h
      simp
  · rw [addEntry_layers_other m L' L style entry hL] at h
    exact hm L info h

theorem applyCall_shapes_ne_nil (m : Map) (c : Call)
    (hm : ∀ L info, dictGet m.layers L = some info → info.shapes ≠ []) :
    ∀ L info, dictGet (applyCall m c).layers L = some info → info.shapes ≠ [] := by
  cases hp : c.payload with
  | shape s =>
    simp only [applyCall, hp, Map.add_shape]
    exact addEntry_shapes_ne_nil m c.layer c.style _ hm
  | gdf g =>
    simp only [applyCall, hp, Map.add_gdf]
    exact addEntry_shapes_ne_nil m c.layer c.style _ hm

theorem applyCalls_shapes_ne_nil (cs : List Call) (m : Map)
    (hm : ∀ L info, dictGet m.layers L = some info → info.shapes ≠ []) :
    ∀ L info, dictGet (applyCalls m cs).layers L = some info →
      info.shapes ≠ [] := by
  induction cs generalizing m with
  | nil => exact hm
  | cons c cs ih => exact ih (applyCall m c) (applyCall_shapes_ne_nil m c hm)

theorem concatRows_length {α : Type} (g : ℕ → List α) (c : ℕ)
    (hg : ∀ i, (g i).length = c) : ∀ r, (concatRows r g).length = r * c := by
  intro r
  induction r with
  | zero => simp [concatRows]
  | succ n ih => simp [concatRows, ih, hg n, Nat.succ_mul]

theorem concatRows_getElem {α : Type} (g : ℕ → List α) (c : ℕ)
    (hg : ∀ i, (g i).length = c) (r i j : ℕ) (hi : i < r) (hj : j < c) :
    (concatRows r g)[i * c + j]? = (g i)[j]? := by
  induction r with
  | zero => exact absurd hi (Nat.not_lt_zero i)
  | succ n ih =>
    rcases Nat.lt_succ_iff_lt_or_eq.mp hi with h | h
    · have hlen : (concatRows n g).length = n * c := concatRows_length g c hg n
      have hidx : i * c + j < (concatRows n g).length := by
        rw [hlen]
        have h1 : i * c + j < (i + 1) * c := by
          rw [Nat.succ_mul]; omega
        have h2 : (i + 1) * c ≤ n * c := Nat.mul_le_mul_right c h
        omega
      show ((concatRows n g ++ g n))[i * c + j]? = _
      rw [List.getElem?_append_left hidx]
      exact ih h
    · subst h
      have hlen : (concatRows i g).length = i * c := concatRows_length g c hg i
      show ((concatRows i g ++ g i))[i * c + j]? = _
      rw [List.getElem?_append_right (by omega)]
      congr 1
      omega

/-- Membership in the closed axis-aligned rectangle with origin `o` and
size `s`. -/
def inClosedRect (o s q : Coord) : Prop :=
  o.1 ≤ q.1 ∧ q.1 ≤ o.1 + s.1 ∧ o.2 ≤ q.2 ∧ q.2 ≤ o.2 + s.2

/-- Membership in the open interior of the rectangle. -/
def inOpenRect (o s q : Coord) : Prop :=
  o.1 < q.1 ∧ q.1 < o.1 + s.1 ∧ o.2 < q.2 ∧ q.2 < o.2 + s.2

theorem pyProcess_error_msg {α β : Type} (normalize : α → Option β) (msg : String) :
    ∀ (l : List α) (err : PyError),
      pyProcess normalize msg l = .error err → err = PyError.typeError msg := by
  intro l
  induction l with
  | nil => intro err h; simp [pyProcess] at h
  | cons e es ih =>
    intro err h
    simp only [pyProcess] at h
    cases hn : normalize e with
    | none =>
      rw [hn] at h
      cases h
      rfl
    | some v =>
      rw [hn] at h
      cases hp : pyProcess normalize msg es with
      | ok vs => rw [hp] at h; cases h
      | error err' =>
        rw [hp] at h
        cases h
        exact ih _ hp

theorem pyProcess_error_iff {α β : Type} (normalize : α → Option β) (msg : String)
    (l : List α) :
    (∃ m, pyProcess normalize msg l = .error (.typeError m)) ↔
      ∃ e ∈ l, normalize e = none := by
  induction l with
  | nil => simp [pyProcess]
  | cons e es ih =>
    simp only [pyProcess]
    cases hn : normalize e with
    | none =>
      simp only [hn]
      exact ⟨fun _ => ⟨e, by simp, hn⟩, fun _ => ⟨msg, rfl⟩⟩
    | some v =>
      simp only [hn]
      cases hp : pyProcess normalize msg es with
      | ok vs =>
        constructor
        · rintro ⟨m, hm⟩
          cases hm
        · rintro ⟨e', he', hne'⟩
          rcases List.mem_cons.mp he' with rfl | he''
          · rw [hn] at hne'; cases hne'
          · rcases ih.mpr ⟨e', he'', hne'⟩ with ⟨m, hm⟩
            rw [hm] at hp
            cases hp
      | error err =>
        have herr : err = PyError.typeError msg :=
          pyProcess_error_msg normalize msg es err hp
        subst herr
        constructor
        · intro _
          rcases ih.mp ⟨msg, hp⟩ with ⟨e', he', hne'⟩
          exact ⟨e', by simp [he'], hne'⟩
        · intro _
          exact ⟨msg, rfl⟩

theorem pyProcess_ok {α β : Type} (normalize : α → Option β) (msg : String)
    (l : List α) (h : ∀ e ∈ l, normalize e ≠ none) :
    pyProcess normalize msg l = .ok (l.filterMap normalize) := by
  induction l with
  | nil => rfl
  | cons e es ih =>
    have he : normalize e ≠ none := h e (by simp)
    cases hn : normalize e with
    | none => exact absurd hn he
    | some v =>
      rw [pyProcess, hn, ih (fun e' he' => h e' (by simp [he']))]
      simp [List.filterMap_cons, hn]

theorem randint_bounds (lo hi : ℤ) (h : lo ≤ hi) (s : List ℤ) :
    lo ≤ (randint lo hi s).1 ∧ (randint lo hi s).1 ≤ hi := by
  cases s with
  | nil => exact ⟨le_refl lo, h⟩
  | cons v rest =>
    by_cases hv : lo ≤ v ∧ v ≤ hi
    · simp [randint, hv]
    · simp [randint, hv, h]

theorem randCoords_length (n : ℕ) (bd : ℤ × ℤ) (s : List ℤ) :
    ((randCoords n bd s).1).length = n := by
  induction n generalizing s with
  | zero => rfl
  | succ n ih => simp [randCoords, ih]

theorem randCoords_bounds (n : ℕ) (bd : ℤ × ℤ) (s : List ℤ) (h : bd.1 ≤ bd.2) :
    ∀ c ∈ (randCoords n bd s).1, ∃ a b : ℤ,
      c = ((a : ℚ), (b : ℚ)) ∧ bd.1 ≤ a ∧ a ≤ bd.2 ∧ bd.1 ≤ b ∧ b ≤ bd.2 := by
  induction n generalizing s with
  | zero => intro c hc; simp [randCoords] at hc
  | succ n ih =>
    intro c hc
    rw [randCoords] at hc
    rcases List.mem_cons.mp hc with rfl | hc'
    · refine ⟨(randint bd.1 bd.2 s).1, (randint bd.1 bd.2 (randint bd.1 bd.2 s).2).1,
        rfl, ?_, ?_, ?_, ?_⟩
      · exact (randint_bounds bd.1 bd.2 h s).1
      · exact (randint_bounds bd.1 bd.2 h s).2
      · exact (randint_bounds bd.1 bd.2 h _).1
      · exact (randint_bounds bd.1 bd.2 h _).2
    · exact ih _ c hc'

theorem to_gdf_fst (sh : Shape) :
    (Shape.to_gdf sh).1 = [dictInsert sh.data "geometry" (Value.geom sh.geometry)] := by
  cases hd : sh.data with
  | nil => simp [Shape.to_gdf, hd]
  | cons p ps => simp [Shape.to_gdf, hd]

/-- The open interiors of two rectangles share no point. -/
def openDisjoint (o1 s1 o2 s2 : Coord) : Prop :=
  ∀ q : Coord, ¬(inOpenRect o1 s1 q ∧ inOpenRect o2 s2 q)

theorem cover_2x2 (q : Coord) :
    inClosedRect (0, 0) (4, 4) q ↔
      inClosedRect (0, 0) (2, 2) q ∨ inClosedRect (2, 0) (2, 2) q ∨
      inClosedRect (0, 2) (2, 2) q ∨ inClosedRect (2, 2) (2, 2) q := by
  obtain ⟨x, y⟩ := q
  simp only [inClosedRect]
  norm_num
  constructor
  · rintro ⟨h1, h2, h3, h4⟩
    rcases le_total x 2 with hx | hx <;> rcases le_total y 2 with hy | hy
    · exact Or.inl ⟨by linarith, by linarith, by linarith, by linarith⟩
    · exact Or.inr (Or.inr (Or.inl ⟨by linarith, by linarith, by linarith, by linarith⟩))
    · exact Or.inr (Or.inl ⟨by linarith, by linarith, by linarith, by linarith⟩)
    · exact Or.inr (Or.inr (Or.inr ⟨by linarith, by linarith, by linarith, by linarith⟩))
  · rintro (⟨h1, h2, h3, h4⟩ | ⟨h1, h2, h3, h4⟩ | ⟨h1, h2, h3, h4⟩ | ⟨h1, h2, h3, h4⟩) <;>
      exact ⟨by linarith, by linarith, by linarith, by linarith⟩

theorem disjoint_2x2 :
    openDisjoint (0, 0) (2, 2) (2, 0) (2, 2) ∧
    openDisjoint (0, 0) (2, 2) (0, 2) (2, 2) ∧
    openDisjoint (0, 0) (2, 2) (2, 2) (2, 2) ∧
    openDisjoint (2, 0) (2, 2) (0, 2) (2, 2) ∧
    openDisjoint (2, 0) (2, 2) (2, 2) (2, 2) ∧
    openDisjoint (0, 2) (2, 2) (2, 2) (2, 2) := by
  refine ⟨?_, ?_, ?_, ?_, ?_, ?_⟩ <;>
  · intro q hq
    obtain ⟨x, y⟩ := q
    simp only [inOpenRect] at hq
    obtain ⟨⟨a1, a2, a3, a4⟩, b1, b2, b3, b4⟩ := hq
    norm_num at a1 a2 a3 a4 b1 b2 b3 b4
    linarith

/-! ## Claim theorems -/

/-- C1: `split_grid(rows, cols)` on a Polygon built from origin `(ox, oy)`
and size `(w, h)` with `rows, cols ≥ 1` returns exactly `rows*cols`
sub-polygons in row-major order, the one at (row `i`, col `j`) being the
Polygon with origin `(ox + j*(w/cols), oy + i*(h/rows))` and size
`(w/cols, h/rows)`; and `split_grid(2, 2)` on the size-(4,4) rectangle at
the origin yields exactly the four size-(2,2) sub-rectangles, which cover
the original rectangle with no gaps (closed covers) and no overlaps
(open interiors pairwise disjoint). -/
theorem splitGrid_partitions :
    (∀ (ox oy w h : ℚ) (rows cols : ℕ), 1 ≤ rows → 1 ≤ cols →
      ∃ L : List SPolygon,
        (splitGrid (mkRect (ox, oy) (w, h)) rows cols).1 = .ok L ∧
        L.length = rows * cols ∧
        ∀ i j : ℕ, i < rows → j < cols →
          L[i * cols + j]? =
            some (mkRect (ox + (j : ℚ) * (w / (cols : ℚ)),
                          oy + (i : ℚ) * (h / (rows : ℚ)))
                         (w / (cols : ℚ), h / (rows : ℚ)))) ∧
    ((splitGrid (mkRect (0, 0) (4, 4)) 2 2).1 =
      .ok [mkRect (0, 0) (2, 2), mkRect (2, 0) (2, 2),
           mkRect (0, 2) (2, 2), mkRect (2, 2) (2, 2)]) ∧
    (∀ q : Coord, inClosedRect (0, 0) (4, 4) q ↔
      inClosedRect (0, 0) (2, 2) q ∨ inClosedRect (2, 0) (2, 2) q ∨
      inClosedRect (0, 2) (2, 2) q ∨ inClosedRect (2, 2) (2, 2) q) ∧
    (openDisjoint (0, 0) (2, 2) (2, 0) (2, 2) ∧
     openDisjoint (0, 0) (2, 2) (0, 2) (2, 2) ∧
     openDisjoint (0, 0) (2, 2) (2, 2) (2, 2) ∧
     openDisjoint (2, 0) (2, 2) (0, 2) (2, 2) ∧
     openDisjoint (2, 0) (2, 2) (2, 2) (2, 2) ∧
     openDisjoint (0, 2) (2, 2) (2, 2) (2, 2)) := by
  refine ⟨?_, ?_, cover_2x2, disjoint_2x2⟩
  · intro ox oy w h rows cols _ _
    refine ⟨_, rfl, ?_, ?_⟩
    · exact concatRows_length _ cols
        (fun i => by rw [List.length_map, List.length_range]) rows
    · intro i j hi hj
      rw [concatRows_getElem _ cols
          (fun i => by rw [List.length_map, List.length_range]) rows i j hi hj,
        List.getElem?_map]
      simp [List.getElem?_range, hj]
  · norm_num [splitGrid, mkRect, rectRing, concatRows, List.range_succ, Prod.ext_iff]

/-- C1 witness: the grid split of the (4,4) rectangle into 2×2, with the
sub-polygon at row 1, col 1. -/
theorem splitGrid_partitions_witness :
    ∃ L : List SPolygon,
      (splitGrid (mkRect (0, 0) (4, 4)) 2 2).1 = .ok L ∧
      L.length = 2 * 2 ∧
      L[1 * 2 + 1]? =
        some (mkRect ((0 : ℚ) + ((1 : ℕ) : ℚ) * ((4 : ℚ) / ((2 : ℕ) : ℚ)),
                      (0 : ℚ) + ((1 : ℕ) : ℚ) * ((4 : ℚ) / ((2 : ℕ) : ℚ)))
                     ((4 : ℚ) / ((2 : ℕ) : ℚ), (4 : ℚ) / ((2 : ℕ) : ℚ))) := by
  obtain ⟨L, h1, h2, h3⟩ :=
    splitGrid_partitions.1 0 0 4 4 2 2 (by norm_num) (by norm_num)
  exact ⟨L, h1, h2, h3 1 1 (by norm_num) (by norm_num)⟩

/-- C2: constructing a Polygon with `coords` absent and not both of
`origin`/`size` given raises `ValueError`; with both `origin` and `size`
the constructor derives the axis-aligned rectangle ring
`[origin, origin+(w,0), origin+(w,h), origin+(0,h)]`. -/
theorem polygon_ctor_spec :
    (∀ (origin size : Option Coord) (interior : Option (List (List Coord)))
        (data : Dict Value), (origin = none ∨ size = none) →
      mkPolygon none origin size interior data =
        .error (.valueError "Must provide either `origin` and `size`, or `coords`.")) ∧
    (∀ (coords : Option (List Coord)) (o s : Coord)
        (interior : Option (List (List Coord))) (data : Dict Value) (p : SPolygon),
      mkPolygon coords (some o) (some s) interior data = .ok p →
      p.coords = CoordsField.list
        [o, (o.1 + s.1, o.2), (o.1 + s.1, o.2 + s.2), (o.1, o.2 + s.2)]) := by
  constructor
  · rintro origin size interior data (rfl | rfl)
    · rfl
    · cases origin <;> rfl
  · intro coords o s interior data p hp
    simp only [mkPolygon] at hp
    cases hp
    rfl

/-- C2 witness. -/
theorem polygon_ctor_spec_witness :
    (mkPolygon none none none none [] =
      .error (.valueError "Must provide either `origin` and `size`, or `coords`.")) ∧
    (mkRect (0, 0) (1, 1)).coords = CoordsField.list
      [((0 : ℚ), (0 : ℚ)), ((0 : ℚ) + 1, 0), ((0 : ℚ) + 1, (0 : ℚ) + 1), (0, (0 : ℚ) + 1)] :=
  ⟨polygon_ctor_spec.1 none none none [] (Or.inl rfl),
   polygon_ctor_spec.2 (some []) (0, 0) (1, 1) none [] (mkRect (0, 0) (1, 1)) rfl⟩

theorem polyElem_normalize_eq_none_iff (e : PolyElem) :
    e.normalize = none ↔ e = PolyElem.other := by
  cases e <;> simp [PolyElem.normalize]

theorem lineElem_normalize_eq_none_iff (e : LineElem) :
    e.normalize = none ↔ e = LineElem.other := by
  cases e <;> simp [LineElem.normalize]

theorem pointElem_normalize_eq_none_iff (e : PointElem) :
    e.normalize = none ↔ e = PointElem.other := by
  cases e <;> simp [PointElem.normalize]

theorem mkMultiPolygon_error_iff (elems : List PolyElem) (data : Dict Value) :
    (∃ m, mkMultiPolygon elems data = .error (.typeError m)) ↔
      ∃ e ∈ elems, e = PolyElem.other := by
  constructor
  · rintro ⟨m, hm⟩
    cases hp : pyProcess PolyElem.normalize
        "MultiPolygon must be initialized with Polygon instances or coordinate lists." elems with
    | ok parts => simp [mkMultiPolygon, hp] at hm
    | error err =>
      rcases (pyProcess_error_iff _ _ _).mp
          ⟨_, (pyProcess_error_msg _ _ _ _ hp) ▸ hp⟩ with ⟨e, he, hne⟩
      exact ⟨e, he, (polyElem_normalize_eq_none_iff e).mp hne⟩
  · rintro ⟨e, he, rfl⟩
    rcases (pyProcess_error_iff PolyElem.normalize
        "MultiPolygon must be initialized with Polygon instances or coordinate lists."
        elems).mpr ⟨_, he, rfl⟩ with ⟨m, hm⟩
    exact ⟨m, by simp [mkMultiPolygon, hm]⟩

theorem mkMultiPolygon_ok (elems : List PolyElem) (data : Dict Value)
    (h : ∀ e ∈ elems, e ≠ PolyElem.other) :
    ∃ mp, mkMultiPolygon elems data = .ok mp ∧
      mp.geometry = Geometry.multiPolygon (elems.filterMap PolyElem.normalize) := by
  have h' : ∀ e ∈ elems, PolyElem.normalize e ≠ none := fun e he hn =>
    h e he ((polyElem_normalize_eq_none_iff e).mp hn)
  refine ⟨⟨⟨CoordsField.nested
      ((elems.filterMap PolyElem.normalize).map (fun pr => closeRing pr.1)),
      data, Geometry.multiPolygon (elems.filterMap PolyElem.normalize)⟩, elems⟩, ?_, rfl⟩
  simp only [mkMultiPolygon, pyProcess_ok _ _ _ h']

theorem mkMultiLine_error_iff (elems : List LineElem) (data : Dict Value) :
    (∃ m, mkMultiLine elems data = .error (.typeError m)) ↔
      ∃ e ∈ elems, e = LineElem.other := by
  constructor
  · rintro ⟨m, hm⟩
    cases hp : pyProcess LineElem.normalize
        "MultiLine must be initialized with Line instances or coordinate lists." elems with
    | ok parts => simp [mkMultiLine, hp] at hm
    | error err =>
      rcases (pyProcess_error_iff _ _ _).mp
          ⟨_, (pyProcess_error_msg _ _ _ _ hp) ▸ hp⟩ with ⟨e, he, hne⟩
      exact ⟨e, he, (lineElem_normalize_eq_none_iff e).mp hne⟩
  · rintro ⟨e, he, rfl⟩
    rcases (pyProcess_error_iff LineElem.normalize
        "MultiLine must be initialized with Line instances or coordinate lists."
        elems).mpr ⟨_, he, rfl⟩ with ⟨m, hm⟩
    exact ⟨m, by simp [mkMultiLine, hm]⟩

theorem mkMultiLine_ok (elems : List LineElem) (data : Dict Value)
    (h : ∀ e ∈ elems, e ≠ LineElem.other) :
    ∃ ml, mkMultiLine elems data = .ok ml ∧
      ml.geometry = Geometry.multiLineString (elems.filterMap LineElem.normalize) := by
  have h' : ∀ e ∈ elems, LineElem.normalize e ≠ none := fun e he hn =>
    h e he ((lineElem_normalize_eq_none_iff e).mp hn)
  refine ⟨⟨⟨CoordsField.nested (elems.filterMap LineElem.normalize),
      data, Geometry.multiLineString (elems.filterMap LineElem.normalize)⟩, elems⟩, ?_, rfl⟩
  simp only [mkMultiLine, pyProcess_ok _ _ _ h']

theorem mkMultiPoint_error_iff (elems : List PointElem) (data : Dict Value) :
    (∃ m, mkMultiPoint elems data = .error (.typeError m)) ↔
      ∃ e ∈ elems, e = PointElem.other := by
  constructor
  · rintro ⟨m, hm⟩
    cases hp : pyProcess PointElem.normalize
        "MultiPoint must be initialized with Point instances or coordinate tuples." elems with
    | ok parts => simp [mkMultiPoint, hp] at hm
    | error err =>
      rcases (pyProcess_error_iff _ _ _).mp
          ⟨_, (pyProcess_error_msg _ _ _ _ hp) ▸ hp⟩ with ⟨e, he, hne⟩
      exact ⟨e, he, (pointElem_normalize_eq_none_iff e).mp hne⟩
  · rintro ⟨e, he, rfl⟩
    rcases (pyProcess_error_iff PointElem.normalize
        "MultiPoint must be initialized with Point instances or coordinate tuples."
        elems).mpr ⟨_, he, rfl⟩ with ⟨m, hm⟩
    exact ⟨m, by simp [mkMultiPoint, hm]⟩

theorem mkMultiPoint_ok (elems : List PointElem) (data : Dict Value)
    (h : ∀ e ∈ elems, e ≠ PointElem.other) :
    ∃ mp, mkMultiPoint elems data = .ok mp ∧
      mp.geometry = Geometry.multiPoint (elems.filterMap PointElem.normalize) := by
  have h' : ∀ e ∈ elems, PointElem.normalize e ≠ none := fun e he hn =>
    h e he ((pointElem_normalize_eq_none_iff e).mp hn)
  refine ⟨⟨⟨CoordsField.nested
      ((elems.filterMap PointElem.normalize).map (fun c => [c])),
      data, Geometry.multiPoint (elems.filterMap PointElem.normalize)⟩, elems⟩, ?_, rfl⟩
  simp only [mkMultiPoint, pyProcess_ok _ _ _ h']

/-- C3: each Multi- constructor (MultiPolygon, MultiLine, MultiPoint)
normalizes every same-kind-Shape or raw-coordinate element into the
derived multi-geometry (in order), and raises `TypeError` exactly when
some element is of neither kind. -/
theorem multi_ctor_spec :
    (∀ (elems : List PolyElem) (data : Dict Value),
      (∃ m, mkMultiPolygon elems data = .error (.typeError m)) ↔
        ∃ e ∈ elems, e = PolyElem.other) ∧
    (∀ (elems : List PolyElem) (data : Dict Value),
      (∀ e ∈ elems, e ≠ PolyElem.other) →
      ∃ mp, mkMultiPolygon elems data = .ok mp ∧
        mp.geometry = Geometry.multiPolygon (elems.filterMap PolyElem.normalize)) ∧
    (∀ (elems : List LineElem) (data : Dict Value),
      (∃ m, mkMultiLine elems data = .error (.typeError m)) ↔
        ∃ e ∈ elems, e = LineElem.other) ∧
    (∀ (elems : List LineElem) (data : Dict Value),
      (∀ e ∈ elems, e ≠ LineElem.other) →
      ∃ ml, mkMultiLine elems data = .ok ml ∧
        ml.geometry = Geometry.multiLineString (elems.filterMap LineElem.normalize)) ∧
    (∀ (elems : List PointElem) (data : Dict Value),
      (∃ m, mkMultiPoint elems data = .error (.typeError m)) ↔
        ∃ e ∈ elems, e = PointElem.other) ∧
    (∀ (elems : List PointElem) (data : Dict Value),
      (∀ e ∈ elems, e ≠ PointElem.other) →
      ∃ mp, mkMultiPoint elems data = .ok mp ∧
        mp.geometry = Geometry.multiPoint (elems.filterMap PointElem.normalize)) :=
  ⟨mkMultiPolygon_error_iff, mkMultiPolygon_ok, mkMultiLine_error_iff,
   mkMultiLine_ok, mkMultiPoint_error_iff, mkMultiPoint_ok⟩

/-- C3 witness: concrete successful constructions of all three Multi-
shapes, plus a concrete `TypeError`. -/
theorem multi_ctor_spec_witness :
    (∃ mp, mkMultiPolygon [PolyElem.coords [(0, 0), (1, 0), (0, 1)]] [] = .ok mp ∧
      mp.geometry = Geometry.multiPolygon
        ([PolyElem.coords [(0, 0), (1, 0), (0, 1)]].filterMap PolyElem.normalize)) ∧
    (∃ ml, mkMultiLine [LineElem.coords [(0, 0), (1, 1)]] [] = .ok ml ∧
      ml.geometry = Geometry.multiLineString
        ([LineElem.coords [(0, 0), (1, 1)]].filterMap LineElem.normalize)) ∧
    (∃ mpt, mkMultiPoint [PointElem.coord (2, 3)] [] = .ok mpt ∧
      mpt.geometry = Geometry.multiPoint
        ([PointElem.coord (2, 3)].filterMap PointElem.normalize)) ∧
    ((∃ m, mkMultiPolygon [PolyElem.other] [] = .error (.typeError m)) ↔
      ∃ e ∈ [PolyElem.other], e = PolyElem.other) :=
  ⟨multi_ctor_spec.2.1 _ [] (by intro e he; simp at he; simp [he]),
   multi_ctor_spec.2.2.2.1 _ [] (by intro e he; simp at he; simp [he]),
   multi_ctor_spec.2.2.2.2.2 _ [] (by intro e he; simp at he; simp [he]),
   multi_ctor_spec.1 [PolyElem.other] []⟩

/-- C4: for any starting `Map`, layer and sequence of well-formed
`add_shape`/`add_gdf` calls targeting that layer, the layer's style after
the calls maps each key to the value of the last call that specified it
(earlier-only keys keep their value, which is the `lastSpec` of the list);
and concretely, adding two shapes with styles `{color: blue}` then
`{edgecolor: black}` leaves the layer style
`{color: blue, edgecolor: black}`. -/
theorem layer_style_merge :
    (∀ (m : Map) (L : String) (calls : List Call) (k : String) (v : Value),
      (∀ c ∈ calls, c.layer = L) → (∀ c ∈ calls, styleWF c.style) →
      lastSpec calls k = some v →
      (applyCalls m calls).styleGet L k = some v) ∧
    (∀ sh1 sh2 : Shape,
      (dictGet ((Map.init.add_shape sh1 "layer1"
          (some [("color", Value.str "blue")]) LabelVal.noLabel none).add_shape
            sh2 "layer1" (some [("edgecolor", Value.str "black")])
            LabelVal.noLabel none).layers "layer1").map LayerInfo.style =
        some [("color", Value.str "blue"), ("edgecolor", Value.str "black")]) := by
  constructor
  · intro m L calls k v hL hwf hspec
    rw [styleGet_applyCalls calls m L k hL hwf, hspec]
  · intro sh1 sh2
    rfl

/-- C4 witness: one concrete call specifying `color: blue`. -/
theorem layer_style_merge_witness :
    (applyCalls Map.init
      [⟨Payload.gdf [], "L", some [("color", Value.str "blue")],
        LabelVal.noLabel, none⟩]).styleGet "L" "color" =
      some (Value.str "blue") :=
  layer_style_merge.1 Map.init "L"
    [⟨Payload.gdf [], "L", some [("color", Value.str "blue")], LabelVal.noLabel, none⟩]
    "color" (Value.str "blue")
    (by intro c hc; simp at hc; simp [hc])
    (by intro c hc; simp at hc; intro s hs; simp [hc] at hs; simp [← hs])
    rfl

/-- C5: a Polygon built from a valid coordinate ring, converted by
`to_gdf`, yields a single-row table whose `geometry` column holds exactly
the polygon's derived geometry, alongside every attribute field of the
shape's data dict. -/
theorem polygon_to_gdf_spec (ring : List Coord) (data : Dict Value)
    (_hring : 3 ≤ ring.length) (p : SPolygon)
    (hp : mkPolygon (some ring) none none none data = .ok p) :
    ∃ row : Row, (Shape.to_gdf p.toShape).1 = [row] ∧
      dictGet row "geometry" = some (Value.geom p.geometry) ∧
      ∀ k, k ≠ "geometry" → dictGet row k = dictGet data k := by
  simp only [mkPolygon] at hp
  cases hp
  refine ⟨_, to_gdf_fst _, ?_, ?_⟩
  · rw [dictGet_insert]
    simp
  · intro k hk
    rw [dictGet_insert, if_neg (fun h => hk h.symm)]

/-- C5 witness: a concrete triangle with one attribute field. -/
theorem polygon_to_gdf_spec_witness :
    (3 : ℕ) ≤ ([((0 : ℚ), (0 : ℚ)), (1, 0), (0, 1)] : List Coord).length ∧
    ∃ row : Row,
      (Shape.to_gdf (⟨⟨CoordsField.list [(0, 0), (1, 0), (0, 1)],
        [("name", Value.str "t")],
        Geometry.polygon [(0, 0), (1, 0), (0, 1)] []⟩,
        none, none, none⟩ : SPolygon).toShape).1 = [row] ∧
      dictGet row "geometry" = some (Value.geom
        (⟨⟨CoordsField.list [(0, 0), (1, 0), (0, 1)],
          [("name", Value.str "t")],
          Geometry.polygon [(0, 0), (1, 0), (0, 1)] []⟩,
          none, none, none⟩ : SPolygon).geometry) ∧
      ∀ k, k ≠ "geometry" →
        dictGet row k = dictGet [("name", Value.str "t")] k :=
  ⟨by norm_num,
   polygon_to_gdf_spec [(0, 0), (1, 0), (0, 1)] [("name", Value.str "t")]
     (by norm_num) _ rfl⟩

/-- C6: the `"line"` branch of `Shape.random`, for every outcome of the
library's uniform integer draws and nondegenerate bounds, returns a Line
with between 2 and 5 coordinate points inclusive, each coordinate an
integer pair drawn from `bounds`. -/
theorem random_line_spec (bounds : ℤ × ℤ) (s : List ℤ) (h : bounds.1 ≤ bounds.2) :
    ∃ cs : List Coord,
      ((randomLine bounds s).1).coords = CoordsField.list cs ∧
      2 ≤ cs.length ∧ cs.length ≤ 5 ∧
      ∀ c ∈ cs, ∃ a b : ℤ, c = ((a : ℚ), (b : ℚ)) ∧
        bounds.1 ≤ a ∧ a ≤ bounds.2 ∧ bounds.1 ≤ b ∧ b ≤ bounds.2 := by
  have hn := randint_bounds 2 5 (by norm_num) s
  refine ⟨(randCoords (randint 2 5 s).1.toNat bounds (randint 2 5 s).2).1,
    rfl, ?_, ?_, ?_⟩
  · rw [randCoords_length]
    omega
  · rw [randCoords_length]
    omega
  · exact randCoords_bounds _ bounds _ h

/-- C6 witness: bounds `(0, 100)` with an empty draw stream. -/
theorem random_line_spec_witness :
    ∃ cs : List Coord,
      ((randomLine ((0 : ℤ), (100 : ℤ)) []).1).coords = CoordsField.list cs ∧
      2 ≤ cs.length ∧ cs.length ≤ 5 ∧
      ∀ c ∈ cs, ∃ a b : ℤ, c = ((a : ℚ), (b : ℚ)) ∧
        (0 : ℤ) ≤ a ∧ a ≤ 100 ∧ (0 : ℤ) ≤ b ∧ b ≤ 100 :=
  random_line_spec (0, 100) [] (by norm_num)

/-- C7 (refuted; code bug): `to_gdf` does NOT leave the shape's attribute
mapping unchanged. `gdf_dict = self.data or {}` aliases `self.data` when
the dict is non-empty, so `gdf_dict["geometry"] = self.geometry` inserts a
`geometry` key into the shape's own data: for the Point at (0,0) with data
`{a: "one"}`, the data after `to_gdf` is
`{a: "one", geometry: <point>}` ≠ `{a: "one"}`. -/
theorem to_gdf_mutates_attribute_dict :
    (mkPoint (some ((0 : ℚ), (0 : ℚ))) [("a", Value.str "one")] =
      .ok ⟨⟨CoordsField.single (0, 0), [("a", Value.str "one")],
        Geometry.point (0, 0)⟩⟩) ∧
    (Shape.to_gdf ⟨CoordsField.single (0, 0), [("a", Value.str "one")],
        Geometry.point (0, 0)⟩).2.data =
      [("a", Value.str "one"), ("geometry", Value.geom (Geometry.point (0, 0)))] ∧
    ([("a", Value.str "one"), ("geometry", Value.geom (Geometry.point (0, 0)))] :
        Dict Value) ≠ [("a", Value.str "one")] := by
  refine ⟨rfl, rfl, by simp⟩

/-- C8: constructing a Point with its coordinate absent, or a Line with
its coordinate sequence absent, raises `ValueError`. -/
theorem point_line_require_coords (data : Dict Value) :
    mkPoint none data = .error (.valueError "Must provide `coords`.") ∧
    mkLine none data = .error (.valueError "Must provide `coords`.") :=
  ⟨rfl, rfl⟩

/-- C9: on a Polygon constructed from a supplied ring without both
`origin` and `size`, `split_grid` raises `ValueError` and leaves the
polygon unchanged. -/
theorem splitGrid_error_without_origin_size (ring : List Coord) (data : Dict Value)
    (origin size : Option Coord) (h : origin = none ∨ size = none)
    (rows cols : ℕ) (p : SPolygon)
    (hp : mkPolygon (some ring) origin size none data = .ok p) :
    (splitGrid p rows cols).1 =
      .error (.valueError "Grid splitting requires `origin` and `size`.") ∧
    (splitGrid p rows cols).2 = p := by
  rcases h with rfl | rfl
  · cases size <;> (simp only [mkPolygon] at hp; cases hp; exact ⟨rfl, rfl⟩)
  · cases origin <;> (simp only [mkPolygon] at hp; cases hp; exact ⟨rfl, rfl⟩)

/-- C9 witness: a concrete triangle polygon from coords only. -/
theorem splitGrid_error_without_origin_size_witness :
    (splitGrid (⟨⟨CoordsField.list [((0 : ℚ), (0 : ℚ)), (1, 0), (0, 1)], [],
        Geometry.polygon [(0, 0), (1, 0), (0, 1)] []⟩,
        none, none, none⟩ : SPolygon) 2 2).1 =
      .error (.valueError "Grid splitting requires `origin` and `size`.") ∧
    (splitGrid (⟨⟨CoordsField.list [((0 : ℚ), (0 : ℚ)), (1, 0), (0, 1)], [],
        Geometry.polygon [(0, 0), (1, 0), (0, 1)] []⟩,
        none, none, none⟩ : SPolygon) 2 2).2 =
      (⟨⟨CoordsField.list [((0 : ℚ), (0 : ℚ)), (1, 0), (0, 1)], [],
        Geometry.polygon [(0, 0), (1, 0), (0, 1)] []⟩,
        none, none, none⟩ : SPolygon) :=
  splitGrid_error_without_origin_size [(0, 0), (1, 0), (0, 1)] [] none none
    (Or.inl rfl) 2 2 _ rfl

/-- C10: in every `Map` reachable from `Map()` by `add_shape`/`add_gdf`
calls, every present layer has a non-empty `"shapes"` list, so the render
step's read of the layer's first entry is defined. -/
theorem layer_entries_nonempty (calls : List Call) (L : String) (info : LayerInfo)
    (h : dictGet (applyCalls Map.init calls).layers L = some info) :
    info.shapes ≠ [] ∧ info.shapes.head?.isSome := by
  have h1 := applyCalls_shapes_ne_nil calls Map.init
    (fun L' i hi => by simp [Map.init, dictGet] at hi) L info h
  refine ⟨h1, ?_⟩
  cases hs : info.shapes with
  | nil => exact absurd hs h1
  | cons a t => simp

/-- C10 witness: one `add_shape` call into the default layer. -/
theorem layer_entries_nonempty_witness :
    (⟨[⟨Payload.shape ⟨CoordsField.single (0, 0), [], Geometry.point (0, 0)⟩,
        LabelVal.noLabel, []⟩], []⟩ : LayerInfo).shapes ≠ [] ∧
    (⟨[⟨Payload.shape ⟨CoordsField.single (0, 0), [], Geometry.point (0, 0)⟩,
        LabelVal.noLabel, []⟩], []⟩ : LayerInfo).shapes.head?.isSome :=
  layer_entries_nonempty
    [⟨Payload.shape ⟨CoordsField.single (0, 0), [], Geometry.point (0, 0)⟩,
      "default", none, LabelVal.noLabel, none⟩]
    "default" _ rfl

end Maply
